import Mathlib

/-!
Verification development for the `pdb2pqr` I/O layer (`pdb2pqr/io.py`).

The Python source is shallowly embedded below.  Numeric values that the
Python code holds as `float` are modelled as exact decimal numbers
(`Dec`: an integer mantissa times a power of ten), because the I/O layer
never performs arithmetic on them: it only parses decimal literals,
stores them, and re-formats them with fixed decimal precision.  Fallible
Python operations (list indexing, `int()` / `float()` conversion) are
embedded with `Option` / `Except`.
-/

namespace Pdb2Pqr

/-- An exact decimal number `num * 10 ^ exp`, modelling the float values
that flow through the I/O layer. -/
structure Dec where
  num : Int
  exp : Int
deriving DecidableEq

/-- Decimal digit character for `d % 10` (used to render numbers). -/
def digChar : Nat → Char
  | 0 => '0' | 1 => '1' | 2 => '2' | 3 => '3' | 4 => '4'
  | 5 => '5' | 6 => '6' | 7 => '7' | 8 => '8' | _ => '9'

/-- Fuel-driven decimal digit expansion of a natural number. -/
def natDigsAux : Nat → Nat → List Char
  | 0, _ => []
  | fuel+1, n => if n < 10 then [digChar n] else natDigsAux fuel (n / 10) ++ [digChar (n % 10)]

/-- Decimal digit list of a natural number (most significant first). -/
def natDigs (n : Nat) : List Char := natDigsAux (n + 1) n

/-- Decimal rendering of a natural number. -/
def natStr (n : Nat) : String := String.mk (natDigs n)

/-- Decimal rendering of an integer, as Python `str` renders `int`. -/
def intStr (z : Int) : String := (if z < 0 then "-" else "") ++ natStr z.natAbs

/-- Left-pad a digit list with zeros to width `w`. -/
def padZeros (w : Nat) (l : List Char) : List Char := List.replicate (w - l.length) '0' ++ l

/-- Right-align a string in a field of width `w` (Python `:>w`). -/
def rightAlign (w : Nat) (s : String) : String :=
  String.mk (List.replicate (w - s.length) ' ') ++ s

/-- Left-align a string in a field of width `w` (Python `:<w`). -/
def leftAlign (w : Nat) (s : String) : String :=
  s ++ String.mk (List.replicate (w - s.length) ' ')

/-- Round `m / 10 ^ (-shift)` (or compute `m * 10 ^ shift` exactly) to the
nearest natural number, ties to even — the rounding used when a decimal
value is re-rendered with fixed precision. -/
def decShiftRound (m : Nat) (shift : Int) : Nat :=
  match shift with
  | .ofNat k => m * 10 ^ k
  | .negSucc k =>
    let p := 10 ^ (k + 1)
    let q := m / p
    let r := m % p
    if p < 2 * r then q + 1 else if 2 * r < p then q else q + q % 2

/-- Python fixed-point formatting `f"{x:.prec f}"` of a decimal value:
sign, integer digits, point, exactly `prec` fractional digits. -/
def fmtFixed (prec : Nat) (d : Dec) : String :=
  let M := decShiftRound d.num.natAbs (d.exp + prec)
  (if d.num < 0 then "-" else "") ++
    natStr (M / 10 ^ prec) ++ "." ++ String.mk (padZeros prec (natDigs (M % 10 ^ prec)))

/-- Python `f"{x:>11.6f}"`, the numeric field format used by `write_cube`
for origin, spacing, charge and coordinate fields. -/
def fmtF11_6 (d : Dec) : String := rightAlign 11 (fmtFixed 6 d)

/-- Body of the scientific format: sign character, leading digit, point,
five fractional digits, `E`, signed two-digit-or-more exponent. -/
def sciCore (neg : Bool) (digs : List Char) (e2 : Int) : String :=
  (if neg then "-" else " ") ++ String.mk (digs.take 1) ++ "." ++
    String.mk (digs.drop 1) ++ "E" ++ (if e2 < 0 then "-" else "+") ++
    String.mk (padZeros 2 (natDigs e2.natAbs))

/-- Scientific formatting of a non-zero magnitude `m * 10 ^ dexp`
rounded to six significant digits, ties to even. -/
def fmtE_pos (m : Nat) (neg : Bool) (dexp : Int) : String :=
  let L := (natDigs m).length
  let e0 : Int := (L - 1 : Nat) + dexp
  let mant := decShiftRound m (5 - ((L - 1 : Nat) : Int))
  let mant2 := if mant = 10 ^ 6 then 10 ^ 5 else mant
  let e2 := if mant = 10 ^ 6 then e0 + 1 else e0
  leftAlign 13 (sciCore neg (padZeros 6 (natDigs mant2)) e2)

/-- Python scientific formatting `f"{x:< 13.5E}"` of a decimal value:
space-or-minus sign, one leading digit, 5 fractional digits, `E`,
signed two-digit exponent, left-aligned in a width-13 field. -/
def fmtE13_5 (d : Dec) : String :=
  if d.num.natAbs = 0 then leftAlign 13 " 0.00000E+00"
  else fmtE_pos d.num.natAbs (d.num < 0) d.exp

/-- Python `sep.join(parts)`. -/
def pyJoin (sep : String) : List String → String
  | [] => ""
  | [s] => s
  | s :: rest => s ++ sep ++ pyJoin sep rest

/-- Concatenation of a list of strings. -/
def strConcat : List String → String
  | [] => ""
  | s :: rest => s ++ strConcat rest

/-- Python `str.split()` with no argument: split on runs of whitespace,
dropping empty tokens.  `acc` holds the current token, reversed. -/
def splitWsAux : List Char → List Char → List String
  | [], acc => if acc.isEmpty then [] else [String.mk acc.reverse]
  | c :: cs, acc =>
    if c.isWhitespace then
      if acc.isEmpty then splitWsAux cs []
      else String.mk acc.reverse :: splitWsAux cs []
    else splitWsAux cs (c :: acc)

/-- Python `line.split()`. -/
def pySplit (s : String) : List String := splitWsAux s.data []

/-- Digit-list accumulator used by the numeric literal parsers. -/
def digitsVal (l : List Char) : Nat := l.foldl (fun a c => 10 * a + (c.toNat - 48)) 0

/-- Strip leading and trailing whitespace from a character list
(Python `str.strip()`). -/
def trimWs (cs : List Char) : List Char :=
  ((cs.dropWhile Char.isWhitespace).reverse.dropWhile Char.isWhitespace).reverse

/-- Model of Python `int(token)` on decimal literals: optional sign
followed by at least one digit. -/
def pyInt? (s : String) : Option Int :=
  let cs := trimWs s.data
  let (sgn, rest) : Int × List Char :=
    match cs with
    | '-' :: t => (-1, t)
    | '+' :: t => (1, t)
    | t => (1, t)
  if rest ≠ [] ∧ rest.all Char.isDigit then some (sgn * digitsVal rest) else none

/-- Model of Python `float(token)` restricted to finite decimal literals
(optional sign, digits with optional point, optional signed exponent),
producing the exact decimal value. -/
def pyFloat? (s : String) : Option Dec :=
  let cs := trimWs s.data
  let (sgn, rest) : Int × List Char :=
    match cs with
    | '-' :: t => (-1, t)
    | '+' :: t => (1, t)
    | t => (1, t)
  let intPart := rest.takeWhile Char.isDigit
  let rest1 := rest.dropWhile Char.isDigit
  let (fracPart, rest2) : List Char × List Char :=
    match rest1 with
    | '.' :: t => (t.takeWhile Char.isDigit, t.dropWhile Char.isDigit)
    | t => ([], t)
  if intPart = [] ∧ fracPart = [] then none
  else
    let mant : Int := sgn * digitsVal (intPart ++ fracPart)
    match rest2 with
    | [] => some ⟨mant, -(fracPart.length : Int)⟩
    | e :: t =>
      if e = 'e' ∨ e = 'E' then
        let (esgn, edigs) : Int × List Char :=
          match t with
          | '-' :: u => (-1, u)
          | '+' :: u => (1, u)
          | u => (1, u)
        if edigs ≠ [] ∧ edigs.all Char.isDigit then
          some ⟨mant, esgn * digitsVal edigs - (fracPart.length : Int)⟩
        else none
      else none

/-- Number of occurrences of pattern `p` as a sublist of `s` (counting
start positions). -/
def countOccsList (p : List Char) : List Char → Nat
  | [] => if p.isEmpty then 1 else 0
  | c :: cs => (if p.isPrefixOf (c :: cs) then 1 else 0) + countOccsList p cs

/-- Number of occurrences of `pat` as a substring of `s`. -/
def countOccs (pat s : String) : Nat := countOccsList pat.data s.data

/-- Modelled from the spec: the `ResidueRecord` data type (the repo's
`Residue` class is outside this excerpt) — name, sequence number, and
aggregate net charge, used only for diagnostic reporting. -/
structure Residue where
  name : String
  res_seq : Int
  charge : Dec
deriving DecidableEq

/-- Modelled from the spec: Python `str(residue)` (the repo's
`Residue.__str__` is outside this excerpt) — the residue "named" by its
label and sequence number. -/
def Residue.str (r : Residue) : String := r.name ++ " " ++ intStr r.res_seq

/-- The `AtomRecord` data model of `structures.Atom` as used by this
I/O layer: serial (rewritten on write), name, chain identifier,
coordinates, charge, radius, and the owning residue. -/
structure PAtom where
  serial : Int
  name : String
  chain_id : String
  x : Dec
  y : Dec
  z : Dec
  charge : Dec
  radius : Dec
  residue : Residue
deriving DecidableEq

/-- Modelled from the spec: `Atom.get_pqr_string` (defined in
`structures.py`, outside this excerpt) — the charge/radius dialect atom
line: record marker, serial, name, residue, optional chain column,
coordinates, charge and radius. -/
def PAtom.get_pqr_string (a : PAtom) (chainflag : Bool) : String :=
  "ATOM  " ++ rightAlign 4 (intStr a.serial) ++ " " ++ a.name ++ " " ++
    a.residue.name ++ " " ++ (if chainflag then a.chain_id ++ " " else "") ++
    intStr a.residue.res_seq ++ " " ++ fmtFixed 3 a.x ++ " " ++ fmtFixed 3 a.y ++ " " ++
    fmtFixed 3 a.z ++ " " ++ fmtFixed 4 a.charge ++ " " ++ fmtFixed 4 a.radius

/-- Modelled from the spec: `Atom.get_pdb_string` (defined in
`structures.py`, outside this excerpt) — the structure-format dialect
atom line with occupancy/temperature-like trailing columns. -/
def PAtom.get_pdb_string (a : PAtom) : String :=
  "ATOM  " ++ rightAlign 4 (intStr a.serial) ++ " " ++ a.name ++ " " ++
    a.residue.name ++ " " ++ intStr a.residue.res_seq ++ " " ++ fmtFixed 3 a.x ++ " " ++
    fmtFixed 3 a.y ++ " " ++ fmtFixed 3 a.z ++ " " ++ fmtFixed 2 ⟨1, 0⟩ ++ " " ++
    fmtFixed 2 ⟨0, 0⟩

/-- Loop of `print_biomolecule_atoms`: walks the enumerated atom list
carrying the current chain id (`none` before the first atom), emits a
`"TER\n"` line at chain transitions, rewrites each atom's serial to
`iatom + 1`, renders the atom line, and appends the `"TER\nEND"`
sentinel after the loop.  Returns the emitted lines together with the
atom list after its in-place serial mutation. -/
def pba_go (chainflag pdbfile : Bool) : Nat → Option String → List PAtom →
    List String × List PAtom
  | _, _, [] => (["TER\nEND"], [])
  | i, cur, a :: rest =>
    let ter : List String :=
      match cur with
      | none => []
      | some c => if a.chain_id ≠ c then ["TER\n"] else []
    let a2 := { a with serial := (i : Int) + 1 }
    let line := if pdbfile then a2.get_pdb_string ++ "\n" else a2.get_pqr_string chainflag ++ "\n"
    let r := pba_go chainflag pdbfile (i + 1) (some a.chain_id) rest
    (ter ++ line :: r.1, a2 :: r.2)

/-- Embedding of `print_biomolecule_atoms` (`io.py` lines 49-72).  The
Python function mutates `atom.serial` in place and returns the list of
text lines; here the renumbered atom list is returned as the second
component. -/
def print_biomolecule_atoms (atomlist : List PAtom) (chainflag : Bool := false)
    (pdbfile : Bool := false) : List String × List PAtom :=
  pba_go chainflag pdbfile 0 none atomlist

/-- Modelled from the spec: the version banner `TITLE_STR` imported from
`config` (outside this excerpt) — the tool-name line of the provenance
banner. -/
def TITLE_STR : String := "PDB2PQR: biomolecular structure conversion software"

/-- Python `str.upper()` on ASCII text. -/
def pyUpper (s : String) : String := String.mk (s.data.map Char.toUpper)

/-- Modelled from the spec: a record produced by the upstream structure
parser (the `pdb` module classes, outside this excerpt): whether it is
one of the twelve header record types, and its `str()` rendering. -/
structure PdbObj where
  is_header_type : Bool
  text : String
deriving DecidableEq

/-- Embedding of `get_old_header` (`io.py` lines 75-103): write
`str(obj)` plus a newline for each leading header-type record, stopping
at the first record of any other type. -/
def get_old_header (pdblist : List PdbObj) : String :=
  strConcat ((pdblist.takeWhile (fun o => o.is_header_type)).map (fun o => o.text ++ "\n"))

/-- The `REMARK 5` unresolved-atom warning section of
`print_pqr_header` (`io.py` lines 163-186), emitted when `atomlist` is
non-empty. -/
def pqr_warn_atoms_section (atomlist : List PAtom) : String :=
  pyJoin "\n"
    ["REMARK   5 WARNING: PDB2PQR was unable to assign charges",
      "REMARK   5 to the following atoms (omitted below):", ""] ++
  strConcat (atomlist.map (fun atom =>
    "REMARK   5    " ++ intStr atom.serial ++ " " ++ atom.name ++ " in " ++
      atom.residue.name ++ " " ++ intStr atom.residue.res_seq ++ "\n")) ++
  pyJoin "\n"
    ["REMARK   5 This is usually due to the fact that this residue is not",
      "REMARK   5 an amino acid or nucleic acid; or, there are no parameters",
      "REMARK   5 available for the specific protonation state of this",
      "REMARK   5 residue in the selected forcefield.",
      "REMARK   5", ""]

/-- The `REMARK 5` non-integral-charge warning section of
`print_pqr_header` (`io.py` lines 187-198), emitted when `reslist` is
non-empty. -/
def pqr_warn_res_section (reslist : List Residue) : String :=
  pyJoin "\n"
    ["REMARK   5 WARNING: Non-integral net charges were found in",
      "REMARK   5 the following residues:", ""] ++
  strConcat (reslist.map (fun residue =>
    "REMARK   5    " ++ residue.str ++ " - Residue Charge: " ++
      fmtFixed 4 residue.charge ++ "\n")) ++
  "REMARK   5\n"

/-- Part of `print_pqr_header` before the conditional warning sections
(`io.py` lines 138-162): banner, naming-scheme line, the
`head += head + "REMARK   1\n"` self-append, and the pKa note. -/
def pqr_header_front (force_field ph_calc_method ffout : Option String) (ph : Dec) : String :=
  let ff := match force_field with
    | none => "User force field"
    | some s => pyUpper s
  let head := pyJoin "\n"
    ["REMARK   1 PQR file generated by PDB2PQR",
      "REMARK   1 " ++ TITLE_STR,
      "REMARK   1",
      "REMARK   1 Forcefield Used: " ++ ff, ""]
  let head := match ffout with
    | none => head
    | some f => head ++ ("REMARK   1 Naming Scheme Used: " ++ f ++ "\n")
  let head := head ++ head ++ "REMARK   1\n"
  match ph_calc_method with
  | none => head
  | some m =>
    head ++ pyJoin "\n"
      ["REMARK   1 pKas calculated by " ++ m ++ " and assigned using pH " ++
        fmtFixed 2 ph ++ "\nREMARK   1", ""]

/-- Part of `print_pqr_header` after the conditional warning sections
(`io.py` lines 199-211): total-charge summary and optional original
header passthrough. -/
def pqr_header_tail (charge : Dec) (pdblist : List PdbObj) (include_old_header : Bool) : String :=
  pyJoin "\n"
    ["REMARK   6 Total charge on this biomolecule: " ++ fmtFixed 4 charge ++
      " e\nREMARK   6", ""] ++
  (if include_old_header then
    pyJoin "\n" ["REMARK   7 Original PDB header follows", "REMARK   7", ""] ++
      get_old_header pdblist
  else "")

/-- Embedding of `print_pqr_header` (`io.py` lines 106-211): the
PDB-remark dialect PQR header. -/
def print_pqr_header (pdblist : List PdbObj) (atomlist : List PAtom)
    (reslist : List Residue) (charge : Dec) (force_field ph_calc_method : Option String)
    (ph : Dec) (ffout : Option String) (include_old_header : Bool := false) : String :=
  pqr_header_front force_field ph_calc_method ffout ph ++
    (if atomlist.length ≠ 0 then pqr_warn_atoms_section atomlist else "") ++
    (if reslist.length ≠ 0 then pqr_warn_res_section reslist else "") ++
    pqr_header_tail charge pdblist include_old_header

/-- The unresolved-atom warning block of `print_pqr_header_cif`
(`io.py` lines 269-288). -/
def cif_warn_atoms_section (atomlist : List PAtom) : String :=
  pyJoin "\n"
    ["Warning: PDB2PQR was unable to assign charges",
      "to the following atoms (omitted below):", ""] ++
  strConcat (atomlist.map (fun atom =>
    "    " ++ intStr atom.serial ++ " " ++ atom.name ++ " in " ++
      atom.residue.name ++ " " ++ intStr atom.residue.res_seq ++ "\n")) ++
  pyJoin "\n"
    ["This is usually due to the fact that this residue is not",
      "an amino acid or nucleic acid; or, there are no parameters",
      "available for the specific protonation state of this",
      "residue in the selected forcefield.", ""]

/-- The non-integral-charge warning block of `print_pqr_header_cif`
(`io.py` lines 289-299). -/
def cif_warn_res_section (reslist : List Residue) : String :=
  pyJoin "\n"
    ["Warning: Non-integral net charges were found in",
      "the following residues:", ""] ++
  strConcat (reslist.map (fun residue =>
    "    " ++ residue.str ++ " - Residue Charge: " ++
      fmtFixed 4 residue.charge ++ "\n"))

/-- Part of `print_pqr_header_cif` before the conditional warning blocks
(`io.py` lines 243-268). -/
def cif_header_front (force_field ph_calc_method ffout : Option String) (ph : Dec) : String :=
  let ff := match force_field with
    | none => "User force field"
    | some s => pyUpper s
  let header := pyJoin "\n"
    ["#", "loop_", "_pdbx_database_remark.id", "_pdbx_database_remark.text",
      "1", ";", "PQR file generated by PDB2PQR", TITLE_STR, "",
      "Forcefield used: " ++ ff ++ "\n"]
  let header := match ffout with
    | none => header
    | some f => header ++ ("Naming scheme used: " ++ f ++ "\n")
  let header := header ++ "\n"
  let header := match ph_calc_method with
    | none => header
    | some m =>
      header ++ ("pKas calculated by " ++ m ++ " and ") ++
        ("assigned using pH " ++ fmtFixed 2 ph ++ "\n")
  header ++ pyJoin "\n" [";", "2", ";", ""]

/-- Part of `print_pqr_header_cif` after the conditional warning blocks
(`io.py` lines 300-327): total-charge block and the fixed `_atom_site`
column-declaration block. -/
def cif_header_tail (charge : Dec) : String :=
  pyJoin "\n"
    [";", "3", ";",
      "Total charge on this biomolecule: " ++ fmtFixed 4 charge ++ " e;", ""] ++
  pyJoin "\n"
    ["#", "loop_", "_atom_site.group_PDB", "_atom_site.id",
      "_atom_site.label_atom_id", "_atom_site.label_comp_id",
      "_atom_site.label_seq_id", "_atom_site.Cartn_x", "_atom_site.Cartn_y",
      "_atom_site.Cartn_z", "_atom_site.pqr_partial_charge",
      "_atom_site.pqr_radius", ""]

/-- Embedding of `print_pqr_header_cif` (`io.py` lines 214-328): the
CIF-loop dialect PQR header.  The Python function only logs a warning
when `include_old_header` is requested; the returned pair is the header
text together with the list of warnings logged. -/
def print_pqr_header_cif (atomlist : List PAtom) (reslist : List Residue)
    (charge : Dec) (force_field ph_calc_method : Option String) (ph : Dec)
    (ffout : Option String) (include_old_header : Bool := false) : String × List String :=
  (cif_header_front force_field ph_calc_method ffout ph ++
    (if 0 < atomlist.length then cif_warn_atoms_section atomlist else "") ++
    (if 0 < reslist.length then cif_warn_res_section reslist else "") ++
    cif_header_tail charge,
  if include_old_header then ["Including original CIF header not implemented."] else [])

/-- The dictionary produced by `read_dx`, with the four keys
`"grid spacing"`, `"values"`, `"number of grid points"`,
`"lower left corner"`. -/
structure DxDict where
  grid_spacing : List (Dec × Dec × Dec)
  values : List Dec
  number_of_grid_points : Option (Int × Int × Int)
  lower_left_corner : Option (Dec × Dec × Dec)
deriving DecidableEq

/-- The Python exceptions that can escape the embedded fragments:
out-of-range indexing and failed numeric conversion. -/
inductive PyErr
  | indexError
  | valueError
deriving DecidableEq

/-- The dictionary value at the start of `read_dx` (`io.py` lines
591-596). -/
def dx_init : DxDict := ⟨[], [], none, none⟩

/-- One iteration of the `read_dx` line loop (`io.py` lines 597-619) on
the whitespace tokens of a line: comment / `attribute` / `component`
lines are skipped, `object 1` lines set the grid dimensions from tokens
5-7 (0-based), `origin` and `delta` lines parse three floats, and every
other line has all its tokens parsed as floats and appended to the
value buffer.  Missing tokens raise `IndexError`, failed conversions
raise `ValueError`. -/
def dx_step (d : DxDict) (words : List String) : Except PyErr DxDict :=
  match words with
  | [] => .error .indexError
  | w :: rest =>
    if w = "#" ∨ w = "attribute" ∨ w = "component" then .ok d
    else if w = "object" then
      match rest with
      | [] => .error .indexError
      | w1 :: rest1 =>
        if w1 = "1" then
          match rest1[3]?, rest1[4]?, rest1[5]? with
          | some t5, some t6, some t7 =>
            match pyInt? t5, pyInt? t6, pyInt? t7 with
            | some a, some b, some c => .ok { d with number_of_grid_points := some (a, b, c) }
            | _, _, _ => .error .valueError
          | _, _, _ => .error .indexError
        else .ok d
    else if w = "origin" then
      match rest[0]?, rest[1]?, rest[2]? with
      | some t1, some t2, some t3 =>
        match pyFloat? t1, pyFloat? t2, pyFloat? t3 with
        | some x, some y, some z => .ok { d with lower_left_corner := some (x, y, z) }
        | _, _, _ => .error .valueError
      | _, _, _ => .error .indexError
    else if w = "delta" then
      match rest[0]?, rest[1]?, rest[2]? with
      | some t1, some t2, some t3 =>
        match pyFloat? t1, pyFloat? t2, pyFloat? t3 with
        | some x, some y, some z => .ok { d with grid_spacing := d.grid_spacing ++ [(x, y, z)] }
        | _, _, _ => .error .valueError
      | _, _, _ => .error .indexError
    else
      match (w :: rest).mapM pyFloat? with
      | some vs => .ok { d with values := d.values ++ vs }
      | none => .error .valueError

/-- Embedding of `read_dx` (`io.py` lines 574-620): fold the line loop
over the input lines, propagating any raised exception. -/
def read_dx (lines : List String) : Except PyErr DxDict :=
  lines.foldlM (fun d line => dx_step d (pySplit line)) dx_init

/-- One atom line written by `write_cube` (`io.py` lines 656-660):
serial right-aligned in width 4, then charge and coordinates in the
`:>11.6f` format. -/
def cube_atom_line (atom : PAtom) : String :=
  rightAlign 4 (intStr atom.serial) ++ " " ++ fmtF11_6 atom.charge ++ " " ++
    fmtF11_6 atom.x ++ " " ++ fmtF11_6 atom.y ++ " " ++ fmtF11_6 atom.z ++ "\n"

/-- One axis line written by `write_cube` (`io.py` lines 649-655):
negated point count and one spacing row. -/
def cube_axis_line (n : Int) (s : Dec × Dec × Dec) : String :=
  rightAlign 4 (intStr (-n)) ++ " " ++ fmtF11_6 s.1 ++ " " ++
    fmtF11_6 s.2.1 ++ " " ++ fmtF11_6 s.2.2 ++ "\n"

/-- Fuel-driven transcription of the `write_cube` value loop (`io.py`
lines 661-670): emit six values per line joined by single spaces, with
the final short line written without a trailing line break. -/
def cube_value_textAux : Nat → List Dec → String
  | 0, _ => ""
  | fuel+1, vs =>
    if vs = [] then ""
    else if 6 < vs.length then
      pyJoin " " ((vs.take 6).map fmtE13_5) ++ "\n" ++ cube_value_textAux fuel (vs.drop 6)
    else pyJoin " " (vs.map fmtE13_5)

/-- The value section written by `write_cube`. -/
def cube_value_text (vs : List Dec) : String := cube_value_textAux vs.length vs

/-- The chunks of the value buffer taken by each iteration of the
`write_cube` value loop. -/
def cube_value_chunksAux : Nat → List Dec → List (List Dec)
  | 0, _ => []
  | fuel+1, vs =>
    if vs = [] then []
    else if 6 < vs.length then vs.take 6 :: cube_value_chunksAux fuel (vs.drop 6)
    else [vs]

/-- The value-buffer chunks, one per emitted value line. -/
def cube_value_chunks (vs : List Dec) : List (List Dec) := cube_value_chunksAux vs.length vs

/-- The fixed preamble written by `write_cube` (`io.py` lines 639-655):
comment, axis-order note, atom count with grid origin, and the three
axis lines. -/
def cube_preamble (comment : String) (numAtoms : Nat) (origin : Dec × Dec × Dec)
    (np : Int × Int × Int) (s0 s1 s2 : Dec × Dec × Dec) : String :=
  comment ++ "\n" ++ "OUTER LOOP: X, MIDDLE LOOP: Y, INNER LOOP: Z\n" ++
    rightAlign 4 (natStr numAtoms) ++ " " ++ fmtF11_6 origin.1 ++ " " ++
    fmtF11_6 origin.2.1 ++ " " ++ fmtF11_6 origin.2.2 ++ "\n" ++
    cube_axis_line np.1 s0 ++ cube_axis_line np.2.1 s1 ++ cube_axis_line np.2.2 s2

/-- Embedding of `write_cube` (`io.py` lines 623-670).  The Python
function writes to a file object; here the written text is returned.
Accessing a missing origin, missing grid dimensions, or fewer than
three spacing rows raises in Python, embedded as `none`. -/
def write_cube (data_dict : DxDict) (atom_list : List PAtom)
    (comment : String := "CPMD CUBE FILE.") : Option String :=
  match data_dict.lower_left_corner, data_dict.number_of_grid_points,
      data_dict.grid_spacing[0]?, data_dict.grid_spacing[1]?, data_dict.grid_spacing[2]? with
  | some origin, some np, some s0, some s1, some s2 =>
    some (cube_preamble comment atom_list.length origin np s0 s1 s2 ++
      strConcat (atom_list.map cube_atom_line) ++
      cube_value_text data_dict.values)
  | _, _, _, _, _ => none

end Pdb2Pqr

namespace Pdb2Pqr

example : natDigs 1234 = ['1', '2', '3', '4'] := by decide
example : fmtFixed 4 ⟨0, 0⟩ = "0.0000" := by decide
example : fmtFixed 4 ⟨-30001, -4⟩ = "-3.0001" := by decide
example : fmtFixed 2 ⟨7, 0⟩ = "7.00" := by decide
example : fmtF11_6 ⟨5, -1⟩ = "   0.500000" := by decide
example : fmtE13_5 ⟨1, 0⟩ = " 1.00000E+00 " := by decide
example : fmtE13_5 ⟨-25, -1⟩ = "-2.50000E+00 " := by decide
example : fmtE13_5 ⟨1234567, -5⟩ = " 1.23457E+01 " := by decide
example : fmtE13_5 ⟨0, 0⟩ = " 0.00000E+00 " := by decide
example : pySplit "  a  bc \n" = ["a", "bc"] := by decide
example : pySplit "   " = [] := by decide
example : pyInt? " 12 " = some 12 := by decide
example : pyFloat? "1.5" = some ⟨15, -1⟩ := by decide
example : pyFloat? "-2e3" = some ⟨-2, 3⟩ := by decide
example : pyFloat? "abc" = none := by decide
example : countOccs "ab" "abcabab" = 3 := by decide
example : intStr (-12) = "-12" := by decide

def egRes : Residue := ⟨"ALA", 1, ⟨0, 0⟩⟩

def egAtomA : PAtom := ⟨0, "N", "A", ⟨1, 0⟩, ⟨2, 0⟩, ⟨3, 0⟩, ⟨-3, -1⟩, ⟨15, -1⟩, egRes⟩

def egAtomB : PAtom := { egAtomA with chain_id := "B", name := "CA" }

example :
    (print_biomolecule_atoms [egAtomA, egAtomB] true false).1 =
      [({ egAtomA with serial := 1 }).get_pqr_string true ++ "\n", "TER\n",
        ({ egAtomB with serial := 2 }).get_pqr_string true ++ "\n", "TER\nEND"] := by
  decide

example : (print_biomolecule_atoms [] true false).1 = ["TER\nEND"] := by decide

/-- A sample DX input declaring a (2,2,2) grid and supplying exactly 8
value tokens. -/
def dxLines8 : List String :=
  ["# Data from APBS",
    "object 1 class gridpositions counts 2 2 2",
    "origin 0.0 0.0 0.0",
    "delta 1.0 0.0 0.0",
    "delta 0.0 1.0 0.0",
    "delta 0.0 0.0 1.0",
    "object 2 class gridconnections counts 2 2 2",
    "object 3 class array type double rank 0 items 8 data follows",
    "1.0 2.0 3.0 4.0 5.0 6.0",
    "7.0 8.0"]

/-- The same DX input with only 7 value tokens. -/
def dxLines7 : List String := dxLines8.dropLast ++ ["7.0"]

example :
    read_dx dxLines8 =
      .ok ⟨[(⟨10, -1⟩, ⟨0, -1⟩, ⟨0, -1⟩), (⟨0, -1⟩, ⟨10, -1⟩, ⟨0, -1⟩),
            (⟨0, -1⟩, ⟨0, -1⟩, ⟨10, -1⟩)],
        [⟨10, -1⟩, ⟨20, -1⟩, ⟨30, -1⟩, ⟨40, -1⟩, ⟨50, -1⟩, ⟨60, -1⟩, ⟨70, -1⟩, ⟨80, -1⟩],
        some (2, 2, 2), some (⟨0, -1⟩, ⟨0, -1⟩, ⟨0, -1⟩)⟩ := by
  rfl

end Pdb2Pqr

namespace Pdb2Pqr

/-- The number of maximal runs of equal chain identifiers in a chain-id
sequence (the `K` of the claim about `print_biomolecule_atoms`). -/
def countRuns : List String → Nat
  | [] => 0
  | [_] => 1
  | a :: b :: l => (if a ≠ b then 1 else 0) + countRuns (b :: l)

/-- The atom line emitted for the atom at 0-based position `i`: the
serial is rewritten to `i + 1` before rendering. -/
def pba_line (i : Nat) (a : PAtom) (chainflag pdbfile : Bool) : String :=
  let a2 := { a with serial := (i : Int) + 1 }
  if pdbfile then a2.get_pdb_string ++ "\n" else a2.get_pqr_string chainflag ++ "\n"

/-- Rendering of the claim's wording for `print_biomolecule_atoms`: a
`"TER\n"` line appears exactly before those atoms where a previous atom
exists and its chain identifier differs, and the trailing terminator /
end-of-record pair closes the output. -/
def specRenderAux (chainflag pdbfile : Bool) : Nat → Option String → List PAtom → List String
  | _, _, [] => ["TER\nEND"]
  | i, prev, a :: rest =>
    (if prev ≠ none ∧ prev ≠ some a.chain_id then ["TER\n"] else []) ++
      pba_line i a chainflag pdbfile ::
        specRenderAux chainflag pdbfile (i + 1) (some a.chain_id) rest

/-- The claim-side rendering of the whole atom list. -/
def specRender (atomlist : List PAtom) (chainflag pdbfile : Bool) : List String :=
  specRenderAux chainflag pdbfile 0 none atomlist

/-- The claim-side serial rewriting: atom at 0-based position `k` gets
serial `i + k + 1`, all other fields unchanged. -/
def renumberFrom : Nat → List PAtom → List PAtom
  | _, [] => []
  | i, a :: rest => { a with serial := (i : Int) + 1 } :: renumberFrom (i + 1) rest

/-- Chain transitions of a chain-id sequence relative to a previous
chain id (`none` before the first atom). -/
def transCount : Option String → List String → Nat
  | _, [] => 0
  | none, c :: l => transCount (some c) l
  | some p, c :: l => (if c ≠ p then 1 else 0) + transCount (some c) l

theorem pba_go_fst_eq_spec (chainflag pdbfile : Bool) :
    ∀ (l : List PAtom) (i : Nat) (cur : Option String),
      (pba_go chainflag pdbfile i cur l).1 = specRenderAux chainflag pdbfile i cur l := by
  intro l
  induction l with
  | nil => intro i cur; rfl
  | cons a rest ih =>
    intro i cur
    cases cur with
    | none => simp [pba_go, specRenderAux, pba_line, ih]
    | some c =>
      by_cases h : a.chain_id = c
      · simp [pba_go, specRenderAux, pba_line, ih, h]
      · simp [pba_go, specRenderAux, pba_line, ih, h, Ne.symm h]

theorem pba_go_snd_eq_renumber (chainflag pdbfile : Bool) :
    ∀ (l : List PAtom) (i : Nat) (cur : Option String),
      (pba_go chainflag pdbfile i cur l).2 = renumberFrom i l := by
  intro l
  induction l with
  | nil => intro i cur; rfl
  | cons a rest ih =>
    intro i cur
    cases cur with
    | none => simp [pba_go, renumberFrom, ih]
    | some c => simp [pba_go, renumberFrom, ih]

theorem pba_line_head (i : Nat) (a : PAtom) (chainflag pdbfile : Bool) :
    (pba_line i a chainflag pdbfile).data.head? = some 'A' := by
  cases pdbfile <;>
    simp [pba_line, PAtom.get_pdb_string, PAtom.get_pqr_string, String.data_append]

theorem pba_line_ne_ter (i : Nat) (a : PAtom) (chainflag pdbfile : Bool) :
    pba_line i a chainflag pdbfile ≠ "TER\n" := by
  intro h
  have := pba_line_head i a chainflag pdbfile
  rw [h] at this
  simp at this

theorem pba_line_ne_end (i : Nat) (a : PAtom) (chainflag pdbfile : Bool) :
    pba_line i a chainflag pdbfile ≠ "TER\nEND" := by
  intro h
  have := pba_line_head i a chainflag pdbfile
  rw [h] at this
  simp at this

theorem specRenderAux_count_ter (chainflag pdbfile : Bool) :
    ∀ (l : List PAtom) (i : Nat) (cur : Option String),
      (specRenderAux chainflag pdbfile i cur l).count "TER\n" =
        transCount cur (l.map PAtom.chain_id) := by
  intro l
  induction l with
  | nil => intro i cur; cases cur <;> simp [specRenderAux, transCount]
  | cons a rest ih =>
    intro i cur
    cases cur with
    | none =>
      simp [specRenderAux, transCount, List.count_cons, ih,
        pba_line_ne_ter i a chainflag pdbfile]
    | some c =>
      by_cases h : a.chain_id = c
      · simp [specRenderAux, transCount, List.count_cons, ih, h,
          pba_line_ne_ter i a chainflag pdbfile]
      · simp [specRenderAux, transCount, List.count_cons, List.count_append, ih, h,
          Ne.symm h, pba_line_ne_ter i a chainflag pdbfile]
        omega

theorem countRuns_cons (c : String) (l : List String) :
    countRuns (c :: l) = 1 + transCount (some c) l := by
  induction l generalizing c with
  | nil => simp [countRuns, transCount]
  | cons b rest ih =>
    by_cases h : b = c
    · subst h; simp [countRuns, transCount, ih]
    · simp [countRuns, transCount, h, ih, Ne.symm h]

theorem specRenderAux_getLast (chainflag pdbfile : Bool) :
    ∀ (l : List PAtom) (i : Nat) (cur : Option String),
      (specRenderAux chainflag pdbfile i cur l).getLast? = some "TER\nEND" := by
  intro l
  induction l with
  | nil => intro i cur; rfl
  | cons a rest ih =>
    intro i cur
    have hne : specRenderAux chainflag pdbfile (i + 1) (some a.chain_id) rest ≠ [] := by
      cases rest <;> simp [specRenderAux]
    show ((if cur ≠ none ∧ cur ≠ some a.chain_id then ["TER\n"] else []) ++
        pba_line i a chainflag pdbfile ::
          specRenderAux chainflag pdbfile (i + 1) (some a.chain_id) rest).getLast? = _
    rw [List.getLast?_append_of_ne_nil _ (by simp),
      show pba_line i a chainflag pdbfile ::
          specRenderAux chainflag pdbfile (i + 1) (some a.chain_id) rest =
        [pba_line i a chainflag pdbfile] ++
          specRenderAux chainflag pdbfile (i + 1) (some a.chain_id) rest from rfl,
      List.getLast?_append_of_ne_nil _ hne, ih]

theorem specRenderAux_ne_nil (chainflag pdbfile : Bool) (l : List PAtom) (i : Nat)
    (cur : Option String) : specRenderAux chainflag pdbfile i cur l ≠ [] := by
  cases l <;> simp [specRenderAux]

theorem specRenderAux_count_end (chainflag pdbfile : Bool) :
    ∀ (l : List PAtom) (i : Nat) (cur : Option String),
      (specRenderAux chainflag pdbfile i cur l).count "TER\nEND" = 1 := by
  intro l
  induction l with
  | nil => intro i cur; rfl
  | cons a rest ih =>
    intro i cur
    show ((if cur ≠ none ∧ cur ≠ some a.chain_id then ["TER\n"] else []) ++
        pba_line i a chainflag pdbfile ::
          specRenderAux chainflag pdbfile (i + 1) (some a.chain_id) rest).count "TER\nEND" = 1
    by_cases h : cur ≠ none ∧ cur ≠ some a.chain_id <;>
      simp [h, List.count_append, List.count_cons, ih,
        pba_line_ne_end i a chainflag pdbfile]

/-- C1: for a non-empty ordered atom sequence spanning `K` maximal runs
of equal chain identifier, `print_biomolecule_atoms` emits exactly
`K - 1` intermediate `"TER\n"` lines, each only where the chain id
differs from the previous atom's (the `specRender` equality), exactly
one trailing terminator/end pair `"TER\nEND"` with no line break after
the sentinel, and rewrites every atom's serial to its 1-based position
among the emitted atom lines (the `renumberFrom 0` equality). -/
theorem print_biomolecule_atoms_ter_and_serials (atomlist : List PAtom)
    (chainflag pdbfile : Bool) (h : atomlist ≠ []) :
    (print_biomolecule_atoms atomlist chainflag pdbfile).1 =
        specRender atomlist chainflag pdbfile ∧
      (print_biomolecule_atoms atomlist chainflag pdbfile).1.count "TER\n" + 1 =
        countRuns (atomlist.map PAtom.chain_id) ∧
      (print_biomolecule_atoms atomlist chainflag pdbfile).1.getLast? = some "TER\nEND" ∧
      (print_biomolecule_atoms atomlist chainflag pdbfile).1.count "TER\nEND" = 1 ∧
      (print_biomolecule_atoms atomlist chainflag pdbfile).2 = renumberFrom 0 atomlist := by
  obtain ⟨a, rest, rfl⟩ : ∃ a rest, atomlist = a :: rest := by
    cases atomlist with
    | nil => exact absurd rfl h
    | cons a rest => exact ⟨a, rest, rfl⟩
  refine ⟨pba_go_fst_eq_spec chainflag pdbfile _ 0 none, ?_,
    ?_, ?_, pba_go_snd_eq_renumber chainflag pdbfile _ 0 none⟩
  · rw [print_biomolecule_atoms, pba_go_fst_eq_spec, specRenderAux_count_ter,
      List.map_cons, countRuns_cons]
    simp [transCount, Nat.add_comm]
  · rw [print_biomolecule_atoms, pba_go_fst_eq_spec, specRenderAux_getLast]
  · rw [print_biomolecule_atoms, pba_go_fst_eq_spec, specRenderAux_count_end]

/-- Witness for C1 at a concrete two-atom, two-chain input. -/
theorem print_biomolecule_atoms_ter_and_serials_witness :
    (print_biomolecule_atoms [egAtomA, egAtomB] true false).1 =
        specRender [egAtomA, egAtomB] true false ∧
      (print_biomolecule_atoms [egAtomA, egAtomB] true false).1.count "TER\n" + 1 =
        countRuns ([egAtomA, egAtomB].map PAtom.chain_id) ∧
      (print_biomolecule_atoms [egAtomA, egAtomB] true false).1.getLast? = some "TER\nEND" ∧
      (print_biomolecule_atoms [egAtomA, egAtomB] true false).1.count "TER\nEND" = 1 ∧
      (print_biomolecule_atoms [egAtomA, egAtomB] true false).2 =
        renumberFrom 0 [egAtomA, egAtomB] :=
  print_biomolecule_atoms_ter_and_serials [egAtomA, egAtomB] true false (by simp)

/-- C9: `print_biomolecule_atoms` on an empty atom sequence returns
exactly the one-element line list holding the trailing terminator/end
pair, with no atom lines and no atoms mutated. -/
theorem print_biomolecule_atoms_empty (chainflag pdbfile : Bool) :
    print_biomolecule_atoms [] chainflag pdbfile = (["TER\nEND"], []) := rfl

/-- C2 (code bug): at a concrete input the provenance banner line
appears twice in the header built by `print_pqr_header`, because of the
`head += head + "REMARK   1\n"` self-append at `io.py` line 153; the
claim requires it to appear exactly once. -/
theorem print_pqr_header_banner_duplicated :
    countOccs "REMARK   1 PQR file generated by PDB2PQR"
      (print_pqr_header [] [] [] ⟨0, 0⟩ none none ⟨0, 0⟩ none false) = 2 := by
  set_option maxRecDepth 4000 in decide

theorem str_append_empty (s : String) : s ++ "" = s := by
  cases s with
  | mk l => show String.mk (l ++ []) = String.mk l; rw [List.append_nil]

/-- C6: with empty failed-atom and non-integral-charge residue lists,
the built header is exactly the front and tail parts with neither
warning section, in both the PDB remark dialect and the CIF loop
dialect. -/
theorem header_empty_lists_omit_warn_sections (pdblist : List PdbObj) (charge ph : Dec)
    (force_field ph_calc_method ffout : Option String) (include_old_header : Bool) :
    print_pqr_header pdblist [] [] charge force_field ph_calc_method ph ffout
        include_old_header =
      pqr_header_front force_field ph_calc_method ffout ph ++
        pqr_header_tail charge pdblist include_old_header ∧
    (print_pqr_header_cif [] [] charge force_field ph_calc_method ph ffout
        include_old_header).1 =
      cif_header_front force_field ph_calc_method ffout ph ++ cif_header_tail charge := by
  constructor
  · show pqr_header_front force_field ph_calc_method ffout ph ++
      (if (0 : Nat) ≠ 0 then pqr_warn_atoms_section [] else "") ++
      (if (0 : Nat) ≠ 0 then pqr_warn_res_section [] else "") ++
      pqr_header_tail charge pdblist include_old_header = _
    simp [str_append_empty]
  · show cif_header_front force_field ph_calc_method ffout ph ++
      (if (0 : Nat) < 0 then cif_warn_atoms_section [] else "") ++
      (if (0 : Nat) < 0 then cif_warn_res_section [] else "") ++
      cif_header_tail charge = _
    simp [str_append_empty]

/-- C7: requesting original-header passthrough from the CIF dialect
never changes the returned header text and never fails; it only adds the
single diagnostic note to the log. -/
theorem print_pqr_header_cif_old_header_degrades (atomlist : List PAtom)
    (reslist : List Residue) (charge : Dec) (force_field ph_calc_method : Option String)
    (ph : Dec) (ffout : Option String) :
    (print_pqr_header_cif atomlist reslist charge force_field ph_calc_method ph
        ffout true).1 =
      (print_pqr_header_cif atomlist reslist charge force_field ph_calc_method ph
        ffout false).1 ∧
    (print_pqr_header_cif atomlist reslist charge force_field ph_calc_method ph
        ffout true).2 = ["Including original CIF header not implemented."] ∧
    (print_pqr_header_cif atomlist reslist charge force_field ph_calc_method ph
        ffout false).2 = [] :=
  ⟨rfl, rfl, rfl⟩

/-- C3 (corrected): `read_dx` on the (2,2,2) grid with 8 value tokens
returns a grid whose value buffer has length 8; with only 7 value
tokens it is silently accepted — the read succeeds with a length-7
buffer, there is no consistency check against `nx*ny*nz`. -/
theorem read_dx_dims_vs_value_count :
    (∃ d, read_dx dxLines8 = .ok d ∧ d.values.length = 8 ∧
      d.number_of_grid_points = some (2, 2, 2)) ∧
    (∃ d, read_dx dxLines7 = .ok d ∧ d.values.length = 7 ∧
      d.number_of_grid_points = some (2, 2, 2)) :=
  ⟨⟨_, rfl, by decide, rfl⟩, ⟨_, rfl, by decide, rfl⟩⟩

/-- C3 counterexample: the claim's error behaviour is false — on the
7-token input `read_dx` does not fail; it returns a grid whose value
buffer has length 7 even though the declared dimensions demand 8. -/
theorem read_dx_short_values_silently_accepted :
    read_dx dxLines7 =
      .ok ⟨[(⟨10, -1⟩, ⟨0, -1⟩, ⟨0, -1⟩), (⟨0, -1⟩, ⟨10, -1⟩, ⟨0, -1⟩),
            (⟨0, -1⟩, ⟨0, -1⟩, ⟨10, -1⟩)],
        [⟨10, -1⟩, ⟨20, -1⟩, ⟨30, -1⟩, ⟨40, -1⟩, ⟨50, -1⟩, ⟨60, -1⟩, ⟨70, -1⟩],
        some (2, 2, 2), some (⟨0, -1⟩, ⟨0, -1⟩, ⟨0, -1⟩)⟩ := by
  rfl

/-- C4: the `read_dx` line loop classifies every line by its first
whitespace token: `#`/`attribute`/`component` lines leave the state
unchanged; an `object` line with second token `1` sets the three grid
dimensions from token positions 6,7,8 (keyword counted as position 1);
an `origin` line sets the lower-left corner; a `delta` line appends one
three-float spacing row; and any other line has all its tokens parsed
as floats and appended in order to the flat value buffer. -/
theorem read_dx_line_classification (d : DxDict) :
    (∀ w rest, (w = "#" ∨ w = "attribute" ∨ w = "component") →
      dx_step d (w :: rest) = .ok d) ∧
    (∀ t2 t3 t4 t5 t6 t7 rest a b c, pyInt? t5 = some a → pyInt? t6 = some b →
      pyInt? t7 = some c →
      dx_step d ("object" :: "1" :: t2 :: t3 :: t4 :: t5 :: t6 :: t7 :: rest) =
        .ok { d with number_of_grid_points := some (a, b, c) }) ∧
    (∀ t1 t2 t3 rest x y z, pyFloat? t1 = some x → pyFloat? t2 = some y →
      pyFloat? t3 = some z →
      dx_step d ("origin" :: t1 :: t2 :: t3 :: rest) =
        .ok { d with lower_left_corner := some (x, y, z) }) ∧
    (∀ t1 t2 t3 rest x y z, pyFloat? t1 = some x → pyFloat? t2 = some y →
      pyFloat? t3 = some z →
      dx_step d ("delta" :: t1 :: t2 :: t3 :: rest) =
        .ok { d with grid_spacing := d.grid_spacing ++ [(x, y, z)] }) ∧
    (∀ w rest vs,
      w ∉ (["#", "attribute", "component", "object", "origin", "delta"] : List String) →
      (w :: rest).mapM pyFloat? = some vs →
      dx_step d (w :: rest) = .ok { d with values := d.values ++ vs }) := by
  refine ⟨?_, ?_, ?_, ?_, ?_⟩
  · intro w rest hw
    rcases hw with h | h | h <;> subst h <;> rfl
  · intro t2 t3 t4 t5 t6 t7 rest a b c h5 h6 h7
    simp [dx_step, h5, h6, h7]
  · intro t1 t2 t3 rest x y z h1 h2 h3
    simp [dx_step, h1, h2, h3]
  · intro t1 t2 t3 rest x y z h1 h2 h3
    simp [dx_step, h1, h2, h3]
  · intro w rest vs hw hparse
    simp only [List.mem_cons, List.mem_singleton, not_or] at hw
    obtain ⟨n1, n2, n3, n4, n5, n6⟩ := hw
    have hp2 : List.mapM.loop pyFloat? (w :: rest) [] = some vs := hparse
    simp [dx_step, n1, n2, n3, n4, n5, n6.1, hp2]

/-- Witness for C4: each classification branch at a concrete line. -/
theorem read_dx_line_classification_witness :
    dx_step dx_init ["#", "comment"] = .ok dx_init ∧
    dx_step dx_init ["object", "1", "class", "gridpositions", "counts", "2", "3", "4"] =
      .ok { dx_init with number_of_grid_points := some (2, 3, 4) } ∧
    dx_step dx_init ["origin", "0.5", "1.5", "2.5"] =
      .ok { dx_init with lower_left_corner := some (⟨5, -1⟩, ⟨15, -1⟩, ⟨25, -1⟩) } ∧
    dx_step dx_init ["delta", "1.0", "0.0", "0.0"] =
      .ok { dx_init with grid_spacing := [(⟨10, -1⟩, ⟨0, -1⟩, ⟨0, -1⟩)] } ∧
    dx_step dx_init ["7.5", "8.5"] =
      .ok { dx_init with values := [⟨75, -1⟩, ⟨85, -1⟩] } :=
  ⟨(read_dx_line_classification dx_init).1 "#" ["comment"] (Or.inl rfl),
    (read_dx_line_classification dx_init).2.1 "class" "gridpositions" "counts"
      "2" "3" "4" [] 2 3 4 rfl rfl rfl,
    (read_dx_line_classification dx_init).2.2.1 "0.5" "1.5" "2.5" []
      ⟨5, -1⟩ ⟨15, -1⟩ ⟨25, -1⟩ rfl rfl rfl,
    (read_dx_line_classification dx_init).2.2.2.1 "1.0" "0.0" "0.0" []
      ⟨10, -1⟩ ⟨0, -1⟩ ⟨0, -1⟩ rfl rfl rfl,
    (read_dx_line_classification dx_init).2.2.2.2 "7.5" ["8.5"]
      [⟨75, -1⟩, ⟨85, -1⟩] (by decide) rfl⟩

theorem read_dx_go_error (lines : List String) :
    ∀ d : DxDict, (∃ l ∈ lines, pySplit l = []) →
      ∃ e, lines.foldlM (fun d line => dx_step d (pySplit line)) d = .error e := by
  induction lines with
  | nil => intro d h; simp at h
  | cons hd tl ih =>
    intro d h
    rcases h with ⟨l, hl, hsplit⟩
    rcases List.mem_cons.1 hl with rfl | hmem
    · refine ⟨.indexError, ?_⟩
      rw [List.foldlM_cons, hsplit]
      rfl
    · cases hstep : dx_step d (pySplit hd) with
      | error e => exact ⟨e, by rw [List.foldlM_cons, hstep]; rfl⟩
      | ok d2 =>
        obtain ⟨e, he⟩ := ih d2 ⟨l, hmem, hsplit⟩
        exact ⟨e, by rw [List.foldlM_cons, hstep]; exact he⟩

/-- C10: any input containing a line that consists only of whitespace
(whose tokenization yields no tokens) makes `read_dx` fail with an
exception, because `words[0]` is accessed without checking that a token
exists. -/
theorem read_dx_blank_line_fails (lines : List String)
    (h : ∃ l ∈ lines, pySplit l = []) : ∃ e, read_dx lines = .error e :=
  read_dx_go_error lines dx_init h

/-- Witness for C10 at a concrete whitespace-only line. -/
theorem read_dx_blank_line_fails_witness :
    ∃ e, read_dx ["object 1 class gridpositions counts 2 2 2", "   "] = .error e :=
  read_dx_blank_line_fails ["object 1 class gridpositions counts 2 2 2", "   "]
    ⟨"   ", by simp, rfl⟩

theorem digChar_isDigit (d : Nat) : (digChar d).isDigit = true := by
  rcases d with _ | _ | _ | _ | _ | _ | _ | _ | _ | d <;> rfl

theorem char_isDigit_ne_nl {c : Char} (h : c.isDigit = true) : c ≠ '\n' := by
  intro h2
  subst h2
  exact absurd h (by decide)

theorem mem_natDigsAux_digit :
    ∀ (fuel n : Nat), ∀ c ∈ natDigsAux fuel n, c.isDigit = true := by
  intro fuel
  induction fuel with
  | zero => intro n c hc; simp [natDigsAux] at hc
  | succ f ih =>
    intro n c hc
    rw [natDigsAux] at hc
    by_cases h : n < 10
    · rw [if_pos h] at hc
      rcases List.mem_singleton.1 hc with rfl
      exact digChar_isDigit n
    · rw [if_neg h] at hc
      rcases List.mem_append.1 hc with hc | hc
      · exact ih (n / 10) c hc
      · rcases List.mem_singleton.1 hc with rfl
        exact digChar_isDigit (n % 10)

theorem mem_natDigs_digit (n : Nat) : ∀ c ∈ natDigs n, c.isDigit = true :=
  mem_natDigsAux_digit (n + 1) n

theorem mem_padZeros_digit {l : List Char} (w : Nat)
    (h : ∀ c ∈ l, c.isDigit = true) : ∀ c ∈ padZeros w l, c.isDigit = true := by
  intro c hc
  rcases List.mem_append.1 hc with hc | hc
  · rcases List.eq_of_mem_replicate hc with rfl
    rfl
  · exact h c hc

theorem no_nl_append {a b : String} (ha : '\n' ∉ a.data) (hb : '\n' ∉ b.data) :
    '\n' ∉ (a ++ b).data := by
  rw [String.data_append]
  intro h
  rcases List.mem_append.1 h with h | h
  · exact ha h
  · exact hb h

theorem no_nl_of_all_digit {l : List Char} (h : ∀ c ∈ l, c.isDigit = true) :
    '\n' ∉ l := fun hm => char_isDigit_ne_nl (h _ hm) rfl

theorem no_nl_leftAlign {s : String} (w : Nat) (h : '\n' ∉ s.data) :
    '\n' ∉ (leftAlign w s).data := by
  refine no_nl_append h ?_
  intro hm
  rcases List.eq_of_mem_replicate hm with h2
  exact absurd h2 (by decide)

theorem no_nl_sciCore (neg : Bool) (digs : List Char) (e2 : Int)
    (h : ∀ c ∈ digs, c.isDigit = true) : '\n' ∉ (sciCore neg digs e2).data := by
  unfold sciCore
  refine no_nl_append (no_nl_append (no_nl_append (no_nl_append (no_nl_append
    (no_nl_append ?_ ?_) (by decide)) ?_) (by decide)) ?_) ?_
  · cases neg <;> decide
  · exact no_nl_of_all_digit fun c hc => h c (List.mem_of_mem_take hc)
  · exact no_nl_of_all_digit fun c hc => h c (List.mem_of_mem_drop hc)
  · by_cases h2 : e2 < 0
    · rw [if_pos h2]
      decide
    · rw [if_neg h2]
      decide
  · exact no_nl_of_all_digit (mem_padZeros_digit 2 (mem_natDigs_digit _))

theorem fmtE_no_nl (d : Dec) : '\n' ∉ (fmtE13_5 d).data := by
  rw [fmtE13_5]
  by_cases h : d.num.natAbs = 0
  · rw [if_pos h]
    decide
  · rw [if_neg h]
    unfold fmtE_pos
    exact no_nl_leftAlign 13
      (no_nl_sciCore _ _ _ (mem_padZeros_digit 6 (mem_natDigs_digit _)))

theorem fmtE_data_ne_nil (d : Dec) : (fmtE13_5 d).data ≠ [] := by
  rw [fmtE13_5]
  by_cases h : d.num.natAbs = 0
  · rw [if_pos h]
    decide
  · rw [if_neg h]
    unfold fmtE_pos leftAlign sciCore
    simp only [String.data_append]
    intro hnil
    have := (List.append_eq_nil.1 hnil).1
    have h1 := (List.append_eq_nil.1 this).1
    have h2 := (List.append_eq_nil.1 h1).1
    have h3 := (List.append_eq_nil.1 h2).1
    have h4 := (List.append_eq_nil.1 h3).1
    have h5 := (List.append_eq_nil.1 h4).1
    by_cases hneg : d.num < 0 <;> simp [hneg] at h5

theorem mem_of_getLast?_eq {α : Type} {l : List α} {a : α} (h : l.getLast? = some a) :
    a ∈ l := by
  have h2 := List.mem_getLast?_eq_getLast (l := l) (x := a) (by rw [h]; rfl)
  rcases h2 with ⟨hne, rfl⟩
  exact List.getLast_mem hne

theorem pyJoin_no_nl {sep : String} (hsep : '\n' ∉ sep.data) :
    ∀ l : List String, (∀ s ∈ l, '\n' ∉ s.data) → '\n' ∉ (pyJoin sep l).data := by
  intro l
  induction l with
  | nil => intro _; simp [pyJoin]
  | cons s rest ih =>
    intro h
    cases rest with
    | nil => exact h s (by simp)
    | cons r rr =>
      refine no_nl_append (no_nl_append (h s (by simp)) hsep) ?_
      exact ih fun t ht => h t (List.mem_cons_of_mem s ht)

theorem pyJoin_data_ne_nil (sep : String) :
    ∀ l : List String, l ≠ [] → (∀ s ∈ l, s.data ≠ []) → (pyJoin sep l).data ≠ [] := by
  intro l
  induction l with
  | nil => intro h; exact absurd rfl h
  | cons s rest ih =>
    intro _ h
    cases rest with
    | nil => exact h s (by simp)
    | cons r rr =>
      show ((s ++ sep) ++ pyJoin sep (r :: rr)).data ≠ []
      rw [String.data_append, String.data_append]
      intro hnil
      exact h s (by simp) (List.append_eq_nil.1 (List.append_eq_nil.1 hnil).1).1

theorem cube_value_chunksAux_ne_nil (fuel : Nat) (vs : List Dec) (hne : vs ≠ [])
    (hlen : vs.length ≤ fuel) : cube_value_chunksAux fuel vs ≠ [] := by
  cases fuel with
  | zero =>
    cases vs with
    | nil => exact absurd rfl hne
    | cons v tl => simp at hlen
  | succ f =>
    rw [cube_value_chunksAux, if_neg hne]
    split <;> simp

theorem cube_value_chunksAux_length :
    ∀ (fuel : Nat) (vs : List Dec), vs ≠ [] → vs.length ≤ fuel →
      (cube_value_chunksAux fuel vs).length = (vs.length + 5) / 6 := by
  intro fuel
  induction fuel with
  | zero =>
    intro vs hne hlen
    cases vs with
    | nil => exact absurd rfl hne
    | cons v tl => simp at hlen
  | succ f ih =>
    intro vs hne hlen
    by_cases h6 : 6 < vs.length
    · have hdl : (vs.drop 6).length = vs.length - 6 := List.length_drop ..
      have hdlle : (vs.drop 6).length ≤ f := by rw [hdl]; omega
      have hdne : vs.drop 6 ≠ [] := by
        intro h0
        rw [h0] at hdl
        simp at hdl
        omega
      rw [cube_value_chunksAux, if_neg hne, if_pos h6, List.length_cons,
        ih _ hdne hdlle, hdl]
      omega
    · rw [cube_value_chunksAux, if_neg hne, if_neg h6]
      have h1 : 1 ≤ vs.length := by
        cases vs with
        | nil => exact absurd rfl hne
        | cons v tl => simp
      simp only [List.length_singleton]
      omega

theorem cube_value_chunksAux_dropLast :
    ∀ (fuel : Nat) (vs : List Dec), vs.length ≤ fuel →
      ∀ c ∈ (cube_value_chunksAux fuel vs).dropLast, c.length = 6 := by
  intro fuel
  induction fuel with
  | zero =>
    intro vs hlen
    cases vs with
    | nil => simp [cube_value_chunksAux]
    | cons v tl => simp at hlen
  | succ f ih =>
    intro vs hlen
    by_cases hne : vs = []
    · subst hne
      simp [cube_value_chunksAux]
    by_cases h6 : 6 < vs.length
    · have hdl : (vs.drop 6).length = vs.length - 6 := List.length_drop ..
      have hdlle : (vs.drop 6).length ≤ f := by rw [hdl]; omega
      have hdne : vs.drop 6 ≠ [] := by
        intro h0
        rw [h0] at hdl
        simp at hdl
        omega
      have hrec_ne : cube_value_chunksAux f (vs.drop 6) ≠ [] :=
        cube_value_chunksAux_ne_nil f _ hdne hdlle
      obtain ⟨c0, cs, hc⟩ := List.exists_cons_of_ne_nil hrec_ne
      rw [cube_value_chunksAux, if_neg hne, if_pos h6, hc, List.dropLast_cons₂]
      intro c hc2
      rcases List.mem_cons.1 hc2 with rfl | hmem
      · rw [List.length_take]
        omega
      · exact ih _ hdlle c (by rw [hc]; exact hmem)
    · rw [cube_value_chunksAux, if_neg hne, if_neg h6]
      simp

theorem cube_value_chunksAux_getLast :
    ∀ (fuel : Nat) (vs : List Dec), vs ≠ [] → vs.length ≤ fuel →
      ∀ c, (cube_value_chunksAux fuel vs).getLast? = some c →
        1 ≤ c.length ∧ c.length ≤ 6 := by
  intro fuel
  induction fuel with
  | zero =>
    intro vs hne hlen
    cases vs with
    | nil => exact absurd rfl hne
    | cons v tl => simp at hlen
  | succ f ih =>
    intro vs hne hlen
    by_cases h6 : 6 < vs.length
    · have hdl : (vs.drop 6).length = vs.length - 6 := List.length_drop ..
      have hdlle : (vs.drop 6).length ≤ f := by rw [hdl]; omega
      have hdne : vs.drop 6 ≠ [] := by
        intro h0
        rw [h0] at hdl
        simp at hdl
        omega
      have hrec_ne : cube_value_chunksAux f (vs.drop 6) ≠ [] :=
        cube_value_chunksAux_ne_nil f _ hdne hdlle
      intro c hc
      rw [cube_value_chunksAux, if_neg hne, if_pos h6,
        show (vs.take 6 :: cube_value_chunksAux f (vs.drop 6)) =
          [vs.take 6] ++ cube_value_chunksAux f (vs.drop 6) from rfl,
        List.getLast?_append_of_ne_nil _ hrec_ne] at hc
      exact ih _ hdne hdlle c hc
    · intro c hc
      rw [cube_value_chunksAux, if_neg hne, if_neg h6] at hc
      simp only [List.getLast?_singleton, Option.some.injEq] at hc
      subst hc
      have h1 : 1 ≤ vs.length := by
        cases vs with
        | nil => exact absurd rfl hne
        | cons v tl => simp
      exact ⟨h1, by omega⟩

theorem cube_value_textAux_eq_join :
    ∀ (fuel : Nat) (vs : List Dec), vs.length ≤ fuel →
      cube_value_textAux fuel vs =
        pyJoin "\n" ((cube_value_chunksAux fuel vs).map
          (fun c => pyJoin " " (c.map fmtE13_5))) := by
  intro fuel
  induction fuel with
  | zero =>
    intro vs hlen
    cases vs with
    | nil => rfl
    | cons v tl => simp at hlen
  | succ f ih =>
    intro vs hlen
    by_cases hne : vs = []
    · subst hne
      rfl
    by_cases h6 : 6 < vs.length
    · have hdl : (vs.drop 6).length = vs.length - 6 := List.length_drop ..
      have hdlle : (vs.drop 6).length ≤ f := by rw [hdl]; omega
      have hdne : vs.drop 6 ≠ [] := by
        intro h0
        rw [h0] at hdl
        simp at hdl
        omega
      have hrec_ne : cube_value_chunksAux f (vs.drop 6) ≠ [] :=
        cube_value_chunksAux_ne_nil f _ hdne hdlle
      obtain ⟨c0, cs, hc⟩ := List.exists_cons_of_ne_nil hrec_ne
      rw [cube_value_textAux, if_neg hne, if_pos h6, cube_value_chunksAux,
        if_neg hne, if_pos h6, ih _ hdlle, hc]
      rfl
    · rw [cube_value_textAux, if_neg hne, if_neg h6, cube_value_chunksAux,
        if_neg hne, if_neg h6]
      rfl

theorem cube_value_textAux_data_ne_nil :
    ∀ (fuel : Nat) (vs : List Dec), vs ≠ [] → vs.length ≤ fuel →
      (cube_value_textAux fuel vs).data ≠ [] := by
  intro fuel vs hne hlen
  cases fuel with
  | zero =>
    cases vs with
    | nil => exact absurd rfl hne
    | cons v tl => simp at hlen
  | succ f =>
    by_cases h6 : 6 < vs.length
    · rw [cube_value_textAux, if_neg hne, if_pos h6]
      show ((pyJoin " " ((vs.take 6).map fmtE13_5) ++ "\n") ++
        cube_value_textAux f (vs.drop 6)).data ≠ []
      rw [String.data_append, String.data_append]
      intro hnil
      have h1 := (List.append_eq_nil.1 (List.append_eq_nil.1 hnil).1).2
      simp at h1
    · rw [cube_value_textAux, if_neg hne, if_neg h6]
      refine pyJoin_data_ne_nil " " _ (by simpa using hne) ?_
      intro s hs
      rcases List.mem_map.1 hs with ⟨d, _, rfl⟩
      exact fmtE_data_ne_nil d

theorem cube_value_textAux_last_ne_nl :
    ∀ (fuel : Nat) (vs : List Dec), vs ≠ [] → vs.length ≤ fuel →
      (cube_value_textAux fuel vs).data.getLast? ≠ some '\n' := by
  intro fuel
  induction fuel with
  | zero =>
    intro vs hne hlen
    cases vs with
    | nil => exact absurd rfl hne
    | cons v tl => simp at hlen
  | succ f ih =>
    intro vs hne hlen
    by_cases h6 : 6 < vs.length
    · have hdl : (vs.drop 6).length = vs.length - 6 := List.length_drop ..
      have hdlle : (vs.drop 6).length ≤ f := by rw [hdl]; omega
      have hdne : vs.drop 6 ≠ [] := by
        intro h0
        rw [h0] at hdl
        simp at hdl
        omega
      rw [cube_value_textAux, if_neg hne, if_pos h6]
      show ((pyJoin " " ((vs.take 6).map fmtE13_5) ++ "\n") ++
        cube_value_textAux f (vs.drop 6)).data.getLast? ≠ some '\n'
      rw [String.data_append, List.getLast?_append_of_ne_nil _
        (cube_value_textAux_data_ne_nil f _ hdne hdlle)]
      exact ih _ hdne hdlle
    · rw [cube_value_textAux, if_neg hne, if_neg h6]
      intro heq
      have hmem := mem_of_getLast?_eq heq
      refine pyJoin_no_nl (by decide) (vs.map fmtE13_5) ?_ hmem
      intro s hs
      rcases List.mem_map.1 hs with ⟨d, _, rfl⟩
      exact fmtE_no_nl d

/-- C5: for every non-empty value buffer of length `N`, the `write_cube`
value loop emits the values in exactly `⌈N/6⌉ = (N+5)/6` lines (the
chunks), every line except the last holding exactly 6 formatted values,
the last line holding 1 to 6 values; the emitted text is the
newline-join of the lines, each line the single-space-join of its
formatted values, with no line break after the last line. -/
theorem write_cube_value_lines (vs : List Dec) (h : vs ≠ []) :
    (cube_value_chunks vs).length = (vs.length + 5) / 6 ∧
    (∀ c ∈ (cube_value_chunks vs).dropLast, c.length = 6) ∧
    (∀ c, (cube_value_chunks vs).getLast? = some c → 1 ≤ c.length ∧ c.length ≤ 6) ∧
    cube_value_text vs =
      pyJoin "\n" ((cube_value_chunks vs).map (fun c => pyJoin " " (c.map fmtE13_5))) ∧
    (cube_value_text vs).data.getLast? ≠ some '\n' :=
  ⟨cube_value_chunksAux_length _ _ h le_rfl,
    cube_value_chunksAux_dropLast _ _ le_rfl,
    cube_value_chunksAux_getLast _ _ h le_rfl,
    cube_value_textAux_eq_join _ _ le_rfl,
    cube_value_textAux_last_ne_nl _ _ h le_rfl⟩

/-- A 7-value buffer used as a concrete witness. -/
def egVals : List Dec := [⟨1, 0⟩, ⟨2, 0⟩, ⟨3, 0⟩, ⟨4, 0⟩, ⟨5, 0⟩, ⟨6, 0⟩, ⟨7, 0⟩]

/-- Witness for C5 at a concrete 7-value buffer (two lines: 6 + 1). -/
theorem write_cube_value_lines_witness :
    (cube_value_chunks egVals).length = (egVals.length + 5) / 6 ∧
    (∀ c ∈ (cube_value_chunks egVals).dropLast, c.length = 6) ∧
    (∀ c, (cube_value_chunks egVals).getLast? = some c → 1 ≤ c.length ∧ c.length ≤ 6) ∧
    cube_value_text egVals =
      pyJoin "\n" ((cube_value_chunks egVals).map (fun c => pyJoin " " (c.map fmtE13_5))) ∧
    (cube_value_text egVals).data.getLast? ≠ some '\n' :=
  write_cube_value_lines egVals (by simp [egVals])

theorem data_mk (l : List Char) : (String.mk l).data = l := rfl

theorem takeWhile_all_append (p : Char → Bool) :
    ∀ (l1 : List Char) (c : Char) (l2 : List Char), (∀ x ∈ l1, p x = true) →
      p c = false → (l1 ++ c :: l2).takeWhile p = l1 := by
  intro l1
  induction l1 with
  | nil =>
    intro c l2 _ hc
    simp [List.takeWhile_cons, hc]
  | cons a l1 ih =>
    intro c l2 h hc
    rw [List.cons_append, List.takeWhile_cons, h a (by simp)]
    rw [ih c l2 (fun x hx => h x (List.mem_cons_of_mem a hx)) hc, if_pos rfl]

theorem natDigsAux_fuel_eq :
    ∀ (n f1 f2 : Nat), n < f1 → n < f2 → natDigsAux f1 n = natDigsAux f2 n := by
  intro n
  induction n using Nat.strong_induction_on with
  | _ n ih =>
    intro f1 f2 h1 h2
    cases f1 with
    | zero => omega
    | succ g1 =>
      cases f2 with
      | zero => omega
      | succ g2 =>
        rw [natDigsAux, natDigsAux]
        by_cases h : n < 10
        · rw [if_pos h, if_pos h]
        · rw [if_neg h, if_neg h]
          have hdiv : n / 10 < n := Nat.div_lt_self (by omega) (by omega)
          rw [ih (n / 10) hdiv g1 g2 (by omega) (by omega)]

theorem natDigs_lt10 {n : Nat} (h : n < 10) : natDigs n = [digChar n] := by
  rw [natDigs, natDigsAux, if_pos h]

theorem natDigs_ge10 {n : Nat} (h : 10 ≤ n) :
    natDigs n = natDigs (n / 10) ++ [digChar (n % 10)] := by
  have hdiv : n / 10 < n := Nat.div_lt_self (by omega) (by omega)
  rw [natDigs, natDigsAux, if_neg (by omega), natDigs,
    natDigsAux_fuel_eq (n / 10) n (n / 10 + 1) (by omega) (by omega)]

theorem natDigs_length_le :
    ∀ (n k : Nat), 0 < k → n < 10 ^ k → (natDigs n).length ≤ k := by
  intro n
  induction n using Nat.strong_induction_on with
  | _ n ih =>
    intro k hk hlt
    by_cases h : n < 10
    · rw [natDigs_lt10 h]
      simpa using hk
    · have h10 : 10 ≤ n := by omega
      have hk2 : 2 ≤ k := by
        by_contra hcon
        have hk1 : k = 1 := by omega
        subst hk1
        simp at hlt
        omega
      have hpow : 10 ^ k = 10 * 10 ^ (k - 1) := by
        conv_lhs => rw [show k = (k - 1) + 1 by omega]
        rw [pow_succ']
      have hdivlt : n / 10 < 10 ^ (k - 1) :=
        Nat.div_lt_of_lt_mul (by rw [← hpow]; exact hlt)
      have hrec := ih (n / 10) (Nat.div_lt_self (by omega) (by omega)) (k - 1)
        (by omega) hdivlt
      rw [natDigs_ge10 h10, List.length_append, List.length_singleton]
      omega

/-- The number of decimal digits at the end of a formatted numeric
field, after the decimal point (the claim's "decimal digits"). -/
def fracDigitCount (s : String) : Nat := (s.data.reverse.takeWhile Char.isDigit).length

theorem fracDigitCount_fmtF11_6 (d : Dec) : fracDigitCount (fmtF11_6 d) = 6 := by
  have hF : ∀ c ∈ padZeros 6
      (natDigs (decShiftRound d.num.natAbs (d.exp + ((6 : Nat) : Int)) % 10 ^ 6)),
      c.isDigit = true :=
    mem_padZeros_digit 6 (mem_natDigs_digit _)
  have hlt : decShiftRound d.num.natAbs (d.exp + ((6 : Nat) : Int)) % 10 ^ 6 < 10 ^ 6 :=
    Nat.mod_lt _ (by norm_num)
  have hlen : (padZeros 6
      (natDigs (decShiftRound d.num.natAbs (d.exp + ((6 : Nat) : Int)) % 10 ^ 6))).length
      = 6 := by
    have h1 := natDigs_length_le _ 6 (by norm_num) hlt
    simp only [padZeros, List.length_append, List.length_replicate]
    omega
  unfold fracDigitCount fmtF11_6 rightAlign fmtFixed
  simp only [String.data_append, data_mk, List.reverse_append, List.reverse_cons,
    List.reverse_nil, List.nil_append, List.append_assoc, List.singleton_append,
    List.cons_append, show ("." : String).data = ['.'] from rfl]
  rw [takeWhile_all_append _ _ _ _ (fun x hx => hF x (List.mem_reverse.1 hx)) (by decide)]
  rw [List.length_reverse]
  exact hlen

theorem fmtF11_6_length (d : Dec) : 11 ≤ (fmtF11_6 d).length := by
  unfold fmtF11_6 rightAlign
  have h1 : (String.mk (List.replicate (11 - (fmtFixed 6 d).length) ' ') ++
      fmtFixed 6 d).length =
      (11 - (fmtFixed 6 d).length) + (fmtFixed 6 d).length := by
    show (List.replicate (11 - (fmtFixed 6 d).length) ' ' ++ (fmtFixed 6 d).data).length = _
    rw [List.length_append, List.length_replicate]
    rfl
  rw [h1]
  omega

/-- A concrete atom with charge 0.5 used in the `write_cube` claims. -/
def cubeAtomEg : PAtom := ⟨1, "N", "A", ⟨1, 0⟩, ⟨2, 0⟩, ⟨3, 0⟩, ⟨5, -1⟩, ⟨15, -1⟩, egRes⟩

/-- A concrete well-formed grid dictionary used in the `write_cube`
claims. -/
def cubeDictEg : DxDict :=
  ⟨[(⟨10, -1⟩, ⟨0, 0⟩, ⟨0, 0⟩), (⟨0, 0⟩, ⟨10, -1⟩, ⟨0, 0⟩), (⟨0, 0⟩, ⟨0, 0⟩, ⟨10, -1⟩)],
    [⟨10, -1⟩, ⟨20, -1⟩], some (2, 2, 2), some (⟨0, 0⟩, ⟨0, 0⟩, ⟨0, 0⟩)⟩

/-- C8 counterexample: at a concrete atom, the atom line emitted by
`write_cube` renders the charge 0.5 as `   0.500000` — six digits after
the decimal point in a width-11 field — so the numeric fields are not
formatted with 4-decimal-digit field widths as the claim states. -/
theorem write_cube_atom_fields_not_4_decimals :
    (∃ s, write_cube cubeDictEg [cubeAtomEg] "CPMD CUBE FILE." = some s ∧
      countOccs (cube_atom_line cubeAtomEg) s = 1) ∧
    cube_atom_line cubeAtomEg =
      "   1    0.500000    1.000000    2.000000    3.000000\n" ∧
    fracDigitCount (fmtF11_6 cubeAtomEg.charge) = 6 ∧ 6 ≠ 4 :=
  ⟨⟨_, rfl, by set_option maxRecDepth 8000 in decide⟩,
    by decide, by decide, by decide⟩

/-- C8 amended: `write_cube` emits one line per atom giving the atom's
serial, charge, and x,y,z coordinates, but the charge and coordinate
fields use the 11.6 fixed format: exactly 6 decimal digits in a field of
width at least 11, not 4-decimal-digit field widths. -/
theorem write_cube_one_line_per_atom (data : DxDict) (atoms : List PAtom)
    (comment : String) (origin : Dec × Dec × Dec) (np : Int × Int × Int)
    (s0 s1 s2 : Dec × Dec × Dec)
    (h1 : data.lower_left_corner = some origin)
    (h2 : data.number_of_grid_points = some np)
    (h3 : data.grid_spacing[0]? = some s0)
    (h4 : data.grid_spacing[1]? = some s1)
    (h5 : data.grid_spacing[2]? = some s2) :
    write_cube data atoms comment =
      some (cube_preamble comment atoms.length origin np s0 s1 s2 ++
        strConcat (atoms.map cube_atom_line) ++ cube_value_text data.values) ∧
    (∀ a : PAtom, cube_atom_line a =
      rightAlign 4 (intStr a.serial) ++ " " ++ fmtF11_6 a.charge ++ " " ++
        fmtF11_6 a.x ++ " " ++ fmtF11_6 a.y ++ " " ++ fmtF11_6 a.z ++ "\n") ∧
    (∀ v : Dec, fracDigitCount (fmtF11_6 v) = 6 ∧ 11 ≤ (fmtF11_6 v).length) := by
  refine ⟨?_, fun a => rfl, fun v => ⟨fracDigitCount_fmtF11_6 v, fmtF11_6_length v⟩⟩
  simp only [write_cube, h1, h2, h3, h4, h5]

/-- Witness for the amended C8 at the concrete grid and atom. -/
theorem write_cube_one_line_per_atom_witness :
    write_cube cubeDictEg [cubeAtomEg] "CPMD CUBE FILE." =
      some (cube_preamble "CPMD CUBE FILE." ([cubeAtomEg] : List PAtom).length
        (⟨0, 0⟩, ⟨0, 0⟩, ⟨0, 0⟩) (2, 2, 2) (⟨10, -1⟩, ⟨0, 0⟩, ⟨0, 0⟩)
        (⟨0, 0⟩, ⟨10, -1⟩, ⟨0, 0⟩) (⟨0, 0⟩, ⟨0, 0⟩, ⟨10, -1⟩) ++
        strConcat (([cubeAtomEg] : List PAtom).map cube_atom_line) ++
        cube_value_text cubeDictEg.values) ∧
    (∀ a : PAtom, cube_atom_line a =
      rightAlign 4 (intStr a.serial) ++ " " ++ fmtF11_6 a.charge ++ " " ++
        fmtF11_6 a.x ++ " " ++ fmtF11_6 a.y ++ " " ++ fmtF11_6 a.z ++ "\n") ∧
    (∀ v : Dec, fracDigitCount (fmtF11_6 v) = 6 ∧ 11 ≤ (fmtF11_6 v).length) :=
  write_cube_one_line_per_atom cubeDictEg [cubeAtomEg] "CPMD CUBE FILE."
    (⟨0, 0⟩, ⟨0, 0⟩, ⟨0, 0⟩) (2, 2, 2) (⟨10, -1⟩, ⟨0, 0⟩, ⟨0, 0⟩)
    (⟨0, 0⟩, ⟨10, -1⟩, ⟨0, 0⟩) (⟨0, 0⟩, ⟨0, 0⟩, ⟨10, -1⟩) rfl rfl rfl rfl rfl

end Pdb2Pqr
